import Mathlib

/-!
Shallow embedding of `src/vector_store.py` (class `QdrantVectorStore`), a thin
adapter over a remote Qdrant vector-database client.

Modelling conventions:
* Python payload / metadata dictionaries become association lists
  `List (String × PVal)`; `dict.get k` (returning `None` when absent) becomes
  `pget`, `dict.get k default` becomes `pgetD`, and the raising lookup
  `dict[k]` becomes `List.lookup` with an explicit `KeyError` on `none`.
* The adapter never inspects embedding entries or scores numerically (they are
  opaque floats passed through to the service), so the float scalar is
  modelled as `Int`.
* Each client method of `qdrant_client.QdrantClient` is a field of the
  `QdrantClient` structure returning `Except PyErr _`: a `.error` models the
  call raising a Python exception.  The adapter methods are total Lean
  functions returning their Python result paired with the list of service
  calls they issued (so "performs no upsert call" is statable); a raised,
  uncaught exception is modelled as an `Except.error` result
  (`ensure_collection_exists` is the only method that re-raises).
* `print` logging in `_ensure_collection_exists` is modelled as the list of
  printed lines, because the "already exists" check there only affects
  logging, not control flow.
* `str(uuid.uuid4())` is modelled by an ambient injective supply
  `uuids : Nat → String` indexed by the loop counter of `add_documents`.
-/

namespace VectorStore

/-- A Python payload/metadata value: a string, an int, or `None`. -/
inductive PVal where
  | str : String → PVal
  | int : Int → PVal
  | none : PVal
deriving DecidableEq, Repr

/-- A Python dict with string keys, in insertion order. -/
abbrev Payload := List (String × PVal)

/-- Python `d.get(k)`: the value at `k`, or `None` when absent. -/
def pget (p : Payload) (k : String) : PVal :=
  match p.lookup k with
  | Option.some v => v
  | Option.none => PVal.none

/-- Python `d.get(k, default)`. -/
def pgetD (p : Payload) (k : String) (d : PVal) : PVal :=
  match p.lookup k with
  | Option.some v => v
  | Option.none => d

/-- Model of `langchain_core.documents.Document`: text content plus a metadata dict.
`page_content` is kept as a `PVal` because `similarity_search` rebuilds it
from an untyped payload value. -/
structure Document where
  page_content : PVal
  metadata : Payload
deriving DecidableEq, Repr

/-- Model of `qdrant_client.http.models.PointStruct`. -/
structure PointStruct where
  id : String
  vector : List Int
  payload : Payload
deriving DecidableEq, Repr

/-- Model of `FieldCondition(key=…, match=MatchValue(value=…))`: one exact-match
equality condition. -/
structure FieldCondition where
  key : String
  matchValue : PVal
deriving DecidableEq, Repr

/-- Model of `Filter(must=[…])`: the AND of its conditions. -/
structure QFilter where
  must : List FieldCondition
deriving DecidableEq, Repr

/-- A point returned by `client.query_points`: payload plus relevance score. -/
structure ScoredPoint where
  id : String
  payload : Payload
  score : Int
deriving DecidableEq, Repr

/-- A raw point returned by `client.scroll`. -/
structure RawPoint where
  id : String
  payload : Payload
deriving DecidableEq, Repr

/-- The part of `client.get_collection(...)` the adapter reads:
`info.config.params.vectors.size` and `info.points_count`. -/
structure CollectionInfo where
  vector_size : Nat
  points_count : Nat
deriving DecidableEq, Repr

/-- A Python exception raised by the client or by a dict lookup. -/
inductive PyErr where
  | exc : String → PyErr
  | keyError : String → PyErr
deriving DecidableEq, Repr

/-- Python `str(e)` on a modelled exception. -/
def PyErr.str : PyErr → String
  | PyErr.exc m => m
  | PyErr.keyError k => k

/-- One service call issued by the adapter, with its arguments. -/
inductive Call where
  | getCollections
  | createCollection (name : String) (size : Nat)
  | createPayloadIndex (name field : String)
  | upsert (name : String) (points : List PointStruct)
  | queryPoints (name : String) (query : List Int) (filter : Option QFilter) (limit : Nat)
  | scroll (name : String) (filter : QFilter) (limit : Nat)
  | delete (name : String) (filter : QFilter)
  | getCollection (name : String)
deriving DecidableEq, Repr

/-- The external Qdrant client: each method either returns a value or raises
(`Except.error`). -/
structure QdrantClient where
  getCollections : Except PyErr (List String)
  createCollection : String → Nat → Except PyErr Unit
  create_payload_index : String → String → Except PyErr Unit
  upsert : String → List PointStruct → Except PyErr Unit
  query_points : String → List Int → Option QFilter → Nat → Except PyErr (List ScoredPoint)
  scroll : String → QFilter → Nat → Except PyErr (List RawPoint)
  delete : String → QFilter → Except PyErr Unit
  getCollection : String → Except PyErr CollectionInfo

namespace QdrantVectorStore

/-- Source line `self.vector_size = 768  # nomic-embed-text embedding dimension`. -/
def vector_size : Nat := 768

/-- One character of Python `str.lower()`, restricted to ASCII (the only
range the compared literal `"already exists"` needs). -/
def lowerChar (c : Char) : Char :=
  if 'A' ≤ c ∧ c ≤ 'Z' then Char.ofNat (c.toNat + 32) else c

/-- Python `"already exists" in str(e).lower()`. -/
def isAlreadyExists (e : PyErr) : Bool :=
  decide ("already exists".toList <:+: e.str.toList.map lowerChar)

/-- The lines printed by the inner `except` of one `create_payload_index`
attempt: nothing when the error says "already exists", otherwise the error
text.  The exception is swallowed either way. -/
def indexLog (e : PyErr) : List String :=
  if isAlreadyExists e then [] else [e.str]

/-- One guarded `create_payload_index` call of `_ensure_collection_exists`:
returns the printed lines; never raises. -/
def tryCreateIndex (client : QdrantClient) (cname fieldName okMsg : String) :
    List String :=
  match client.create_payload_index cname fieldName with
  | Except.ok _ => [okMsg]
  | Except.error e => indexLog e

/-- Model of `QdrantVectorStore._ensure_collection_exists`: lists collections, creates
the collection when missing, then creates the two payload indexes inside
swallowing `try`s.  Returns the printed lines; re-raises (`Except.error`) only
for failures of `get_collections` / `create_collection`. -/
def ensure_collection_exists (client : QdrantClient) (cname : String) :
    Except PyErr (List String) :=
  match client.getCollections with
  | Except.error e => Except.error e
  | Except.ok names =>
    let step1 : Except PyErr (List String) :=
      if cname ∈ names then Except.ok []
      else
        match client.createCollection cname vector_size with
        | Except.error e => Except.error e
        | Except.ok _ => Except.ok ["Created collection: " ++ cname]
    match step1 with
    | Except.error e => Except.error e
    | Except.ok log1 =>
      Except.ok (log1
        ++ tryCreateIndex client cname "session_id" "Created session_id index"
        ++ tryCreateIndex client cname "source_type" "Created source_type index")

/-- The `PointStruct` built for the pair at loop index `i` of
`add_documents`. -/
def mkPoint (uuid : String) (i : Nat) (doc : Document) (embedding : List Int) :
    PointStruct :=
  { id := uuid
    vector := embedding
    payload := [("content", doc.page_content),
                ("source_type", pget doc.metadata "source_type"),
                ("source_name", pget doc.metadata "source_name"),
                ("session_id", pget doc.metadata "session_id"),
                ("chunk_id", pgetD doc.metadata "chunk_id" (PVal.int i))] }

/-- The loop `for i, (doc, embedding) in enumerate(zip(documents, embeddings))`
of `add_documents`, starting at counter `i`: pairs with an empty (falsy)
embedding are skipped but still advance the counter. -/
def buildPointsAux (uuids : Nat → String) :
    Nat → List (Document × List Int) → List PointStruct
  | _, [] => []
  | i, (doc, embedding) :: rest =>
    if embedding.isEmpty then buildPointsAux uuids (i + 1) rest
    else mkPoint (uuids i) i doc embedding :: buildPointsAux uuids (i + 1) rest

/-- The `points` list built by `add_documents`. -/
def buildPoints (uuids : Nat → String) (documents : List Document)
    (embeddings : List (List Int)) : List PointStruct :=
  buildPointsAux uuids 0 (documents.zip embeddings)

/-- Model of `QdrantVectorStore.add_documents`: builds points, returns `False` without
calling the service when none result, otherwise upserts them in one call and
maps an upsert exception to `False`. -/
def add_documents (client : QdrantClient) (cname : String) (uuids : Nat → String)
    (documents : List Document) (embeddings : List (List Int)) :
    Bool × List Call :=
  let points := buildPoints uuids documents embeddings
  if points.isEmpty then (false, [])
  else
    match client.upsert cname points with
    | Except.ok _ => (true, [Call.upsert cname points])
    | Except.error _ => (false, [Call.upsert cname points])

/-- The `query_filter` construction of `similarity_search`: `None` stays `None`,
an empty dict is falsy, and a non-empty dict becomes a `must` (AND) list of
one exact-match condition per entry. -/
def mkQueryFilter : Option (List (String × PVal)) → Option QFilter
  | Option.none => Option.none
  | Option.some l =>
    if l.isEmpty then Option.none
    else Option.some ⟨l.map (fun kv => ⟨kv.1, kv.2⟩)⟩

/-- One iteration of the result-mapping loop of `similarity_search`:
`result.payload["content"]` raises `KeyError` when absent; the remaining
metadata fields use `payload.get`. -/
def docOfPoint (r : ScoredPoint) : Except PyErr Document :=
  match r.payload.lookup "content" with
  | Option.none => Except.error (PyErr.keyError "content")
  | Option.some c =>
    Except.ok
      { page_content := c
        metadata := [("source_type", pget r.payload "source_type"),
                     ("source_name", pget r.payload "source_name"),
                     ("session_id", pget r.payload "session_id"),
                     ("chunk_id", pget r.payload "chunk_id"),
                     ("score", PVal.int r.score)] }

/-- The result-mapping loop of `similarity_search`: the first `KeyError`
aborts the whole loop (the partially built list is discarded by the raise). -/
def docsOfPoints : List ScoredPoint → Except PyErr (List Document)
  | [] => Except.ok []
  | r :: rest =>
    match docOfPoint r with
    | Except.error e => Except.error e
    | Except.ok d =>
      match docsOfPoints rest with
      | Except.error e => Except.error e
      | Except.ok ds => Except.ok (d :: ds)

/-- Model of `QdrantVectorStore.similarity_search`: empty query embedding is a
no-network fast path; any exception (from `query_points` or from the mapping
loop) yields `[]`. -/
def similarity_search (client : QdrantClient) (cname : String)
    (query_embedding : List Int) (k : Nat)
    (filter_dict : Option (List (String × PVal))) :
    List Document × List Call :=
  if query_embedding.isEmpty then ([], [])
  else
    let qf := mkQueryFilter filter_dict
    match client.query_points cname query_embedding qf k with
    | Except.error _ => ([], [Call.queryPoints cname query_embedding qf k])
    | Except.ok pts =>
      match docsOfPoints pts with
      | Except.error _ => ([], [Call.queryPoints cname query_embedding qf k])
      | Except.ok docs => (docs, [Call.queryPoints cname query_embedding qf k])

/-- The `session_id` equality filter shared by
`get_documents_by_session` and `delete_by_session`. -/
def sessionFilter (session_id : String) : QFilter :=
  ⟨[⟨"session_id", PVal.str session_id⟩]⟩

/-- The flat record built for one scrolled point by
`get_documents_by_session`. -/
def recOfPoint (p : RawPoint) : Payload :=
  [("id", PVal.str p.id),
   ("content", pget p.payload "content"),
   ("source_type", pget p.payload "source_type"),
   ("source_name", pget p.payload "source_name"),
   ("chunk_id", pget p.payload "chunk_id")]

/-- Model of `QdrantVectorStore.get_documents_by_session`: one `scroll` call with the
session filter and `limit=1000`; errors yield `[]`. -/
def get_documents_by_session (client : QdrantClient) (cname : String)
    (session_id : String) : List Payload × List Call :=
  match client.scroll cname (sessionFilter session_id) 1000 with
  | Except.error _ => ([], [Call.scroll cname (sessionFilter session_id) 1000])
  | Except.ok pts =>
    (pts.map recOfPoint, [Call.scroll cname (sessionFilter session_id) 1000])

/-- Model of `QdrantVectorStore.delete_by_session`: one filtered `delete` call; errors
yield `False`. -/
def delete_by_session (client : QdrantClient) (cname : String)
    (session_id : String) : Bool × List Call :=
  match client.delete cname (sessionFilter session_id) with
  | Except.ok _ => (true, [Call.delete cname (sessionFilter session_id)])
  | Except.error _ => (false, [Call.delete cname (sessionFilter session_id)])

/-- Model of `QdrantVectorStore.get_collection_info`: errors yield `{}`. -/
def get_collection_info (client : QdrantClient) (cname : String) :
    Payload × List Call :=
  match client.getCollection cname with
  | Except.error _ => ([], [Call.getCollection cname])
  | Except.ok info =>
    ([("name", PVal.str cname),
      ("vector_size", PVal.int info.vector_size),
      ("points_count", PVal.int info.points_count)],
     [Call.getCollection cname])

/-- A payload satisfies a `Filter(must=…)` when every condition's key stores
exactly the condition's value (Qdrant exact-match semantics; an absent key
never matches). -/
def satisfiesFilter (payload : Payload) (f : QFilter) : Bool :=
  f.must.all (fun c => decide (pget payload c.key = c.matchValue))

end QdrantVectorStore

open QdrantVectorStore

/-! ### Concrete fixtures used by witnesses and counterexamples -/

/-- An injective uuid supply standing in for `str(uuid.uuid4())`. -/
def uuidSupply (i : Nat) : String := String.mk (List.replicate i 'u')

theorem uuidSupply_injective : Function.Injective uuidSupply := by
  intro a b h
  have hdata : List.replicate a 'u' = List.replicate b 'u' :=
    congrArg String.data h
  have := congrArg List.length hdata
  simpa using this

/-- A client whose every call raises. -/
def failClient : QdrantClient :=
  { getCollections := Except.error (PyErr.exc "service down")
    createCollection := fun _ _ => Except.error (PyErr.exc "service down")
    create_payload_index := fun _ _ => Except.error (PyErr.exc "service down")
    upsert := fun _ _ => Except.error (PyErr.exc "service down")
    query_points := fun _ _ _ _ => Except.error (PyErr.exc "service down")
    scroll := fun _ _ _ => Except.error (PyErr.exc "service down")
    delete := fun _ _ => Except.error (PyErr.exc "service down")
    getCollection := fun _ => Except.error (PyErr.exc "service down") }

/-- A client whose every call succeeds, returning empty data. -/
def okClient : QdrantClient :=
  { getCollections := Except.ok []
    createCollection := fun _ _ => Except.ok ()
    create_payload_index := fun _ _ => Except.ok ()
    upsert := fun _ _ => Except.ok ()
    query_points := fun _ _ _ _ => Except.ok []
    scroll := fun _ _ _ => Except.ok []
    delete := fun _ _ => Except.ok ()
    getCollection := fun _ => Except.ok ⟨768, 0⟩ }

/-- A sample input document with no metadata. -/
def sampleDoc : Document := ⟨PVal.str "hello", []⟩

/-! ### C1: fail-soft runtime operations -/

/-- C1: every runtime operation other than setup maps a raised service error
to its empty/negative result (`false` for `add_documents` and
`delete_by_session`, `[]` for `similarity_search` and
`get_documents_by_session`, `{}` for `get_collection_info`); none of them
re-raises (they are total functions into plain result types). -/
theorem c1_runtime_operations_fail_soft (cl : QdrantClient) (cname : String)
    (uuids : Nat → String) (documents : List Document)
    (embeddings : List (List Int)) (q : List Int) (k : Nat)
    (fd : Option (List (String × PVal))) (sid : String) (e₁ e₂ e₃ e₄ e₅ : PyErr) :
    (cl.upsert cname (buildPoints uuids documents embeddings) = Except.error e₁ →
      (add_documents cl cname uuids documents embeddings).1 = false) ∧
    (q ≠ [] → cl.query_points cname q (mkQueryFilter fd) k = Except.error e₂ →
      (similarity_search cl cname q k fd).1 = []) ∧
    (cl.scroll cname (sessionFilter sid) 1000 = Except.error e₃ →
      (get_documents_by_session cl cname sid).1 = []) ∧
    (cl.delete cname (sessionFilter sid) = Except.error e₄ →
      (delete_by_session cl cname sid).1 = false) ∧
    (cl.getCollection cname = Except.error e₅ →
      (get_collection_info cl cname).1 = []) := by
  refine ⟨?_, ?_, ?_, ?_, ?_⟩
  · intro h
    unfold add_documents
    simp only []
    split
    · rfl
    · rw [h]
  · intro hq h
    unfold similarity_search
    rw [if_neg (by simpa [List.isEmpty_iff] using hq)]
    simp only []
    rw [h]
  · intro h
    unfold get_documents_by_session
    rw [h]
  · intro h
    unfold delete_by_session
    rw [h]
  · intro h
    unfold get_collection_info
    rw [h]

/-- Witness for C1 at the all-failing client. -/
theorem c1_runtime_operations_fail_soft_witness :
    (add_documents failClient "rag_documents" uuidSupply [sampleDoc] [[1]]).1 = false ∧
    (similarity_search failClient "rag_documents" [1] 5 Option.none).1 = [] ∧
    (get_documents_by_session failClient "rag_documents" "s1").1 = [] ∧
    (delete_by_session failClient "rag_documents" "s1").1 = false ∧
    (get_collection_info failClient "rag_documents").1 = [] := by
  have h := c1_runtime_operations_fail_soft failClient "rag_documents" uuidSupply
    [sampleDoc] [[1]] [1] 5 Option.none "s1"
    (PyErr.exc "service down") (PyErr.exc "service down") (PyErr.exc "service down")
    (PyErr.exc "service down") (PyErr.exc "service down")
  exact ⟨h.1 rfl, h.2.1 (by decide) rfl, h.2.2.1 rfl, h.2.2.2.1 rfl, h.2.2.2.2 rfl⟩

/-! ### C2: setup error policy -/

/-- A client for which both payload-index creations fail with an error that
does not mention "already exists", while listing succeeds and the collection
is already present. -/
def idxFailClient : QdrantClient :=
  { okClient with
    getCollections := Except.ok ["rag_documents"]
    create_payload_index := fun _ _ => Except.error (PyErr.exc "index backend exploded") }

/-- A client for which collection creation itself fails. -/
def createFailClient : QdrantClient :=
  { okClient with
    createCollection := fun _ _ => Except.error (PyErr.exc "create failed") }

/-- C2 counterexample: a payload-index creation failure whose message does not
say "already exists" is swallowed (construction still succeeds, merely logging
the error), contradicting the claim that every non-"already exists" setup
failure aborts adapter construction and propagates. -/
theorem c2_counterexample :
    idxFailClient.create_payload_index "rag_documents" "session_id" =
      Except.error (PyErr.exc "index backend exploded") ∧
    isAlreadyExists (PyErr.exc "index backend exploded") = false ∧
    ensure_collection_exists idxFailClient "rag_documents" =
      Except.ok ["index backend exploded", "index backend exploded"] := by
  refine ⟨rfl, by decide, by rfl⟩

/-- C2 amended: "already exists" failures of index creation are treated as
success, failures of collection listing or collection creation are fatal and
propagate, and every other index-creation failure is logged but swallowed
(construction still succeeds). -/
theorem c2_setup_error_policy (cl : QdrantClient) (cname : String) :
    (∀ e, cl.getCollections = Except.error e →
       ensure_collection_exists cl cname = Except.error e) ∧
    (∀ names e, cl.getCollections = Except.ok names → cname ∉ names →
       cl.createCollection cname vector_size = Except.error e →
       ensure_collection_exists cl cname = Except.error e) ∧
    (∀ names, cl.getCollections = Except.ok names →
       (cname ∈ names ∨ cl.createCollection cname vector_size = Except.ok ()) →
       ∃ log, ensure_collection_exists cl cname = Except.ok log) ∧
    (∀ e, isAlreadyExists e = true → indexLog e = []) := by
  refine ⟨?_, ?_, ?_, ?_⟩
  · intro e h
    unfold ensure_collection_exists
    rw [h]
  · intro names e hnames hmem hcreate
    unfold ensure_collection_exists
    rw [hnames]
    simp only []
    rw [if_neg hmem, hcreate]
  · intro names hnames hok
    unfold ensure_collection_exists
    rw [hnames]
    simp only []
    by_cases hmem : cname ∈ names
    · rw [if_pos hmem]
      exact ⟨_, rfl⟩
    · rcases hok with hok | hok
      · exact absurd hok hmem
      · rw [if_neg hmem, hok]
        exact ⟨_, rfl⟩
  · intro e he
    simp [indexLog, he]

/-- Witness for C2 amended: listing failure propagates, collection-creation
failure propagates, a non-"already exists" index failure is swallowed, and an
"already exists" index failure logs nothing. -/
theorem c2_setup_error_policy_witness :
    ensure_collection_exists failClient "rag_documents" =
      Except.error (PyErr.exc "service down") ∧
    ensure_collection_exists createFailClient "rag_documents" =
      Except.error (PyErr.exc "create failed") ∧
    (∃ log, ensure_collection_exists idxFailClient "rag_documents" = Except.ok log) ∧
    indexLog (PyErr.exc "Index Already EXISTS") = [] := by
  refine ⟨(c2_setup_error_policy failClient "rag_documents").1 _ rfl,
    (c2_setup_error_policy createFailClient "rag_documents").2.1 [] _ rfl
      (by decide) rfl,
    (c2_setup_error_policy idxFailClient "rag_documents").2.2.1
      ["rag_documents"] rfl (Or.inl (by decide)),
    (c2_setup_error_policy idxFailClient "rag_documents").2.2.2 _ (by decide)⟩

/-! ### C3: embedding dimensionality -/

/-- Every point produced by the `add_documents` loop comes from a pair of the
zipped input with a non-empty embedding, and is `mkPoint` of that pair at some
loop index. -/
theorem mem_buildPointsAux (uuids : Nat → String) :
    ∀ (n : Nat) (l : List (Document × List Int)) (p : PointStruct),
      p ∈ buildPointsAux uuids n l →
      ∃ i doc emb, (doc, emb) ∈ l ∧ emb.isEmpty = false ∧
        p = mkPoint (uuids i) i doc emb := by
  intro n l
  induction l generalizing n with
  | nil => intro p hp; simp [buildPointsAux] at hp
  | cons hd tl ih =>
    intro p hp
    obtain ⟨doc, emb⟩ := hd
    simp only [buildPointsAux] at hp
    by_cases he : emb.isEmpty
    · rw [if_pos he] at hp
      obtain ⟨i, d, e, hmem, hne, heq⟩ := ih (n + 1) p hp
      exact ⟨i, d, e, List.mem_cons_of_mem _ hmem, hne, heq⟩
    · rw [if_neg he] at hp
      rcases List.mem_cons.mp hp with h | h
      · exact ⟨n, doc, emb, List.mem_cons_self _ _, by simpa using he, h⟩
      · obtain ⟨i, d, e, hmem, hne, heq⟩ := ih (n + 1) p h
        exact ⟨i, d, e, List.mem_cons_of_mem _ hmem, hne, heq⟩

/-- C3 counterexample: the adapter performs no length validation, so a call
with a length-3 embedding upserts a point whose vector has length 3, not the
collection's configured 768. -/
theorem c3_counterexample :
    (add_documents okClient "rag_documents" uuidSupply [sampleDoc] [[1, 2, 3]]).2 =
      [Call.upsert "rag_documents"
        [{ id := ""
           vector := [1, 2, 3]
           payload := [("content", PVal.str "hello"),
                       ("source_type", PVal.none),
                       ("source_name", PVal.none),
                       ("session_id", PVal.none),
                       ("chunk_id", PVal.int 0)] }]] ∧
    [(1 : Int), 2, 3].length ≠ vector_size := ⟨rfl, by decide⟩

/-- C3 amended: the adapter passes each non-empty embedding through verbatim,
so every upserted point carries a vector of the collection's configured
dimensionality (`vector_size = 768`, fixed in `__init__` and used at
collection creation) exactly when every non-empty input embedding has that
length; the adapter itself validates nothing. -/
theorem c3_upserted_vector_length (cl : QdrantClient) (cname : String)
    (uuids : Nat → String) (documents : List Document)
    (embeddings : List (List Int))
    (h : ∀ emb ∈ embeddings, emb ≠ [] → emb.length = vector_size) :
    (∀ p ∈ buildPoints uuids documents embeddings,
       p.vector.length = vector_size) ∧
    ((add_documents cl cname uuids documents embeddings).2 = [] ∨
      (add_documents cl cname uuids documents embeddings).2 =
        [Call.upsert cname (buildPoints uuids documents embeddings)]) ∧
    vector_size = 768 := by
  refine ⟨?_, ?_, rfl⟩
  · intro p hp
    obtain ⟨i, doc, emb, hmem, hne, heq⟩ := mem_buildPointsAux uuids 0 _ p hp
    have hembmem : emb ∈ embeddings := (List.of_mem_zip hmem).2
    have hnil : emb ≠ [] := by simpa using hne
    rw [heq]
    simpa [mkPoint] using h emb hembmem hnil
  · unfold add_documents
    simp only []
    split
    · exact Or.inl rfl
    · split <;> exact Or.inr rfl

/-- A 768-dimensional embedding. -/
def emb768 : List Int := List.replicate 768 0

/-- Witness for C3 amended at a single 768-length embedding. -/
theorem c3_upserted_vector_length_witness :
    (∀ p ∈ buildPoints uuidSupply [sampleDoc] [emb768],
       p.vector.length = vector_size) ∧
    ((add_documents okClient "rag_documents" uuidSupply [sampleDoc] [emb768]).2 = [] ∨
      (add_documents okClient "rag_documents" uuidSupply [sampleDoc] [emb768]).2 =
        [Call.upsert "rag_documents" (buildPoints uuidSupply [sampleDoc] [emb768])]) ∧
    vector_size = 768 := by
  refine c3_upserted_vector_length okClient "rag_documents" uuidSupply
    [sampleDoc] [emb768] ?_
  intro emb hm _
  have : emb = emb768 := by simpa using hm
  rw [this]
  show (List.replicate 768 (0 : Int)).length = vector_size
  rw [List.length_replicate]
  rfl

/-! ### C4: point construction -/

/-- The `add_documents` loop equals a filter of the enumerated zipped input
(pairs with non-empty embeddings) mapped through `mkPoint` at their loop
index. -/
theorem buildPointsAux_eq_filterMap (uuids : Nat → String) :
    ∀ (n : Nat) (l : List (Document × List Int)),
      buildPointsAux uuids n l =
        ((List.enumFrom n l).filter (fun pr => !pr.2.2.isEmpty)).map
          (fun pr => mkPoint (uuids pr.1) pr.1 pr.2.1 pr.2.2) := by
  intro n l
  induction l generalizing n with
  | nil => simp [buildPointsAux]
  | cons hd tl ih =>
    obtain ⟨doc, emb⟩ := hd
    simp only [buildPointsAux, List.enumFrom, List.filter_cons]
    by_cases he : emb.isEmpty
    · rw [if_pos he]
      simp [he, ih (n + 1)]
    · rw [if_neg he]
      simp [he, ih (n + 1)]

/-- The loop produces one point per pair whose embedding is non-empty. -/
theorem buildPointsAux_length (uuids : Nat → String) :
    ∀ (n : Nat) (l : List (Document × List Int)),
      (buildPointsAux uuids n l).length =
        l.length - l.countP (fun pr => pr.2.isEmpty) := by
  intro n l
  induction l generalizing n with
  | nil => simp [buildPointsAux]
  | cons hd tl ih =>
    obtain ⟨doc, emb⟩ := hd
    have hc : tl.countP (fun pr => pr.2.isEmpty) ≤ tl.length :=
      List.countP_le_length _
    simp only [buildPointsAux]
    by_cases he : emb.isEmpty
    · have hcount : List.countP (fun pr => pr.2.isEmpty) ((doc, emb) :: tl) =
          List.countP (fun pr => pr.2.isEmpty) tl + 1 := by
        simp [List.countP_cons, he]
      rw [if_pos he, ih (n + 1), hcount]
      simp only [List.length_cons]
      omega
    · have hcount : List.countP (fun pr => pr.2.isEmpty) ((doc, emb) :: tl) =
          List.countP (fun pr => pr.2.isEmpty) tl := by
        simp [List.countP_cons, he]
      rw [if_neg he, hcount]
      simp only [List.length_cons, ih (n + 1)]
      omega

/-- With positionally paired inputs of equal length, counting empty
embeddings over the zip is counting them over the embeddings list. -/
theorem zip_countP_isEmpty :
    ∀ (documents : List Document) (embeddings : List (List Int)),
      documents.length = embeddings.length →
      (documents.zip embeddings).countP (fun pr => pr.2.isEmpty) =
        embeddings.countP (fun e => e.isEmpty) := by
  intro documents
  induction documents with
  | nil =>
    intro embs h
    have : embs = [] := by
      cases embs with
      | nil => rfl
      | cons e es => simp at h
    rw [this]
    simp
  | cons d ds ih =>
    intro embs h
    cases embs with
    | nil => simp at h
    | cons e es =>
      simp only [List.zip_cons_cons, List.countP_cons]
      rw [ih es (by simpa using h)]

/-- Every id among the loop's points comes from the uuid supply at an index
at least the starting counter. -/
theorem buildPointsAux_id_ge (uuids : Nat → String) :
    ∀ (n : Nat) (l : List (Document × List Int)) (p : PointStruct),
      p ∈ buildPointsAux uuids n l → ∃ i, n ≤ i ∧ p.id = uuids i := by
  intro n l
  induction l generalizing n with
  | nil => intro p hp; simp [buildPointsAux] at hp
  | cons hd tl ih =>
    intro p hp
    obtain ⟨doc, emb⟩ := hd
    simp only [buildPointsAux] at hp
    by_cases he : emb.isEmpty
    · rw [if_pos he] at hp
      obtain ⟨i, hi, heq⟩ := ih (n + 1) p hp
      exact ⟨i, by omega, heq⟩
    · rw [if_neg he] at hp
      rcases List.mem_cons.mp hp with h | h
      · exact ⟨n, le_refl n, by rw [h]; rfl⟩
      · obtain ⟨i, hi, heq⟩ := ih (n + 1) p h
        exact ⟨i, by omega, heq⟩

/-- Under an injective uuid supply the generated ids are pairwise distinct. -/
theorem buildPointsAux_ids_nodup (uuids : Nat → String)
    (hinj : Function.Injective uuids) :
    ∀ (n : Nat) (l : List (Document × List Int)),
      ((buildPointsAux uuids n l).map PointStruct.id).Nodup := by
  intro n l
  induction l generalizing n with
  | nil => simp [buildPointsAux]
  | cons hd tl ih =>
    obtain ⟨doc, emb⟩ := hd
    simp only [buildPointsAux]
    by_cases he : emb.isEmpty
    · rw [if_pos he]
      exact ih (n + 1)
    · rw [if_neg he]
      simp only [List.map_cons]
      refine List.nodup_cons.mpr ⟨?_, ih (n + 1)⟩
      intro hmem
      obtain ⟨p, hp, hid⟩ := List.mem_map.mp hmem
      obtain ⟨i, hi, heq⟩ := buildPointsAux_id_ge uuids (n + 1) tl p hp
      have : (mkPoint (uuids n) n doc emb).id = uuids n := rfl
      rw [heq] at hid
      rw [this] at hid
      have := hinj hid.symm
      omega

/-- C4: with equal-length inputs of which `M` embeddings are empty, exactly
`N − M` points are built (and those are what a non-empty build upserts, in one
call), ids are pairwise distinct under an injective uuid supply, every payload
has exactly the fields content, source_type, source_name, session_id,
chunk_id, and chunk_id defaults to the pair's position when absent from the
document metadata. -/
theorem c4_point_construction (uuids : Nat → String)
    (documents : List Document) (embeddings : List (List Int))
    (hlen : documents.length = embeddings.length)
    (hinj : Function.Injective uuids) :
    (buildPoints uuids documents embeddings).length =
      embeddings.length - embeddings.countP (fun e => e.isEmpty) ∧
    ((buildPoints uuids documents embeddings).map PointStruct.id).Nodup ∧
    (∀ p ∈ buildPoints uuids documents embeddings,
       p.payload.map Prod.fst =
         ["content", "source_type", "source_name", "session_id", "chunk_id"]) ∧
    buildPoints uuids documents embeddings =
      ((documents.zip embeddings).enum.filter (fun pr => !pr.2.2.isEmpty)).map
        (fun pr => mkPoint (uuids pr.1) pr.1 pr.2.1 pr.2.2) ∧
    (∀ i doc emb, doc.metadata.lookup "chunk_id" = Option.none →
       pget (mkPoint (uuids i) i doc emb).payload "chunk_id" = PVal.int i) ∧
    (∀ cl cname, buildPoints uuids documents embeddings ≠ [] →
       (add_documents cl cname uuids documents embeddings).2 =
         [Call.upsert cname (buildPoints uuids documents embeddings)]) := by
  refine ⟨?_, ?_, ?_, ?_, ?_, ?_⟩
  · rw [buildPoints, buildPointsAux_length,
      zip_countP_isEmpty documents embeddings hlen, List.length_zip, hlen,
      Nat.min_self]
  · exact buildPointsAux_ids_nodup uuids hinj 0 _
  · intro p hp
    obtain ⟨i, doc, emb, _, _, heq⟩ := mem_buildPointsAux uuids 0 _ p hp
    rw [heq]
    rfl
  · exact buildPointsAux_eq_filterMap uuids 0 _
  · intro i doc emb h
    have hstep : pget (mkPoint (uuids i) i doc emb).payload "chunk_id" =
        pgetD doc.metadata "chunk_id" (PVal.int i) := rfl
    rw [hstep]
    unfold pgetD
    rw [h]
  · intro cl cname hne
    unfold add_documents
    simp only []
    rw [if_neg (by simpa [List.isEmpty_iff] using hne)]
    split <;> rfl

/-- Three documents, the middle one carrying an explicit chunk_id. -/
def docs4 : List Document :=
  [⟨PVal.str "a", []⟩,
   ⟨PVal.str "b", [("chunk_id", PVal.int 7)]⟩,
   ⟨PVal.str "c", []⟩]

/-- Three embeddings, the middle one empty. -/
def embs4 : List (List Int) := [[1], [], [2, 3]]

/-- Witness for C4 at three pairs of which one embedding is empty. -/
theorem c4_point_construction_witness :
    (buildPoints uuidSupply docs4 embs4).length =
      embs4.length - embs4.countP (fun e => e.isEmpty) ∧
    ((buildPoints uuidSupply docs4 embs4).map PointStruct.id).Nodup ∧
    (∀ p ∈ buildPoints uuidSupply docs4 embs4,
       p.payload.map Prod.fst =
         ["content", "source_type", "source_name", "session_id", "chunk_id"]) ∧
    buildPoints uuidSupply docs4 embs4 =
      ((docs4.zip embs4).enum.filter (fun pr => !pr.2.2.isEmpty)).map
        (fun pr => mkPoint (uuidSupply pr.1) pr.1 pr.2.1 pr.2.2) ∧
    (∀ i doc emb, doc.metadata.lookup "chunk_id" = Option.none →
       pget (mkPoint (uuidSupply i) i doc emb).payload "chunk_id" = PVal.int i) ∧
    (∀ cl cname, buildPoints uuidSupply docs4 embs4 ≠ [] →
       (add_documents cl cname uuidSupply docs4 embs4).2 =
         [Call.upsert cname (buildPoints uuidSupply docs4 embs4)]) :=
  c4_point_construction uuidSupply docs4 embs4 rfl uuidSupply_injective

/-! ### C5: no valid points -/

/-- When every pair's embedding is empty the loop produces no points. -/
theorem buildPointsAux_nil_of_allEmpty (uuids : Nat → String) :
    ∀ (n : Nat) (l : List (Document × List Int)),
      (∀ pr ∈ l, (pr : Document × List Int).2.isEmpty = true) →
      buildPointsAux uuids n l = [] := by
  intro n l
  induction l generalizing n with
  | nil => intro; rfl
  | cons hd tl ih =>
    intro h
    obtain ⟨doc, emb⟩ := hd
    simp only [buildPointsAux]
    rw [if_pos (h (doc, emb) (List.mem_cons_self _ _))]
    exact ih (n + 1) fun pr hpr => h pr (List.mem_cons_of_mem _ hpr)

/-- C5: with an empty document list, or with every embedding empty, no valid
point results, so `add_documents` returns `False` with an empty call trace
(no upsert reaches the service). -/
theorem c5_no_valid_points (cl : QdrantClient) (cname : String)
    (uuids : Nat → String) (documents : List Document)
    (embeddings : List (List Int))
    (h : documents = [] ∨ ∀ e ∈ embeddings, e = []) :
    add_documents cl cname uuids documents embeddings = (false, []) := by
  have hnil : buildPoints uuids documents embeddings = [] := by
    rcases h with h | h
    · rw [h]
      rfl
    · apply buildPointsAux_nil_of_allEmpty
      intro pr hpr
      obtain ⟨d, e⟩ := pr
      have hmem : e ∈ embeddings := (List.of_mem_zip hpr).2
      simp [h e hmem]
  unfold add_documents
  simp only []
  rw [hnil]
  rfl

/-- Witness for C5: both triggering shapes at the all-succeeding client. -/
theorem c5_no_valid_points_witness :
    add_documents okClient "rag_documents" uuidSupply [] [[1]] = (false, []) ∧
    add_documents okClient "rag_documents" uuidSupply [sampleDoc] [[]] = (false, []) := by
  refine ⟨c5_no_valid_points okClient "rag_documents" uuidSupply [] [[1]]
    (Or.inl rfl),
    c5_no_valid_points okClient "rag_documents" uuidSupply [sampleDoc] [[]]
    (Or.inr ?_)⟩
  intro e he
  simpa using he

/-! ### C6: result order and metadata -/

/-- The `Document` built from a scored point whose payload has a content
entry. -/
def docOfPointTotal (r : ScoredPoint) : Document :=
  { page_content := pget r.payload "content"
    metadata := [("source_type", pget r.payload "source_type"),
                 ("source_name", pget r.payload "source_name"),
                 ("session_id", pget r.payload "session_id"),
                 ("chunk_id", pget r.payload "chunk_id"),
                 ("score", PVal.int r.score)] }

/-- When every returned payload has a content entry, the mapping loop
succeeds and maps the points in order. -/
theorem docsOfPoints_total :
    ∀ pts : List ScoredPoint,
      (∀ r ∈ pts, (r.payload.lookup "content").isSome = true) →
      docsOfPoints pts = Except.ok (pts.map docOfPointTotal) := by
  intro pts
  induction pts with
  | nil => intro; rfl
  | cons r rest ih =>
    intro h
    have hr := h r (List.mem_cons_self _ _)
    obtain ⟨c, hc⟩ := Option.isSome_iff_exists.mp hr
    simp only [docsOfPoints, docOfPoint, hc]
    rw [ih fun x hx => h x (List.mem_cons_of_mem _ hx)]
    simp [docOfPointTotal, pget, hc]

/-- C6: a successful `similarity_search` returns exactly the service's points
mapped in the service's order (no re-sorting), and each result's content is
the payload's content while its metadata lists source_type, source_name,
session_id, chunk_id and the point's score. -/
theorem c6_order_and_metadata (cl : QdrantClient) (cname : String)
    (q : List Int) (k : Nat) (fd : Option (List (String × PVal)))
    (pts : List ScoredPoint)
    (hq : q ≠ [])
    (hok : cl.query_points cname q (mkQueryFilter fd) k = Except.ok pts)
    (hcontent : ∀ r ∈ pts, (r.payload.lookup "content").isSome = true) :
    (similarity_search cl cname q k fd).1 = pts.map docOfPointTotal ∧
    (∀ r : ScoredPoint, docOfPointTotal r =
       ⟨pget r.payload "content",
        [("source_type", pget r.payload "source_type"),
         ("source_name", pget r.payload "source_name"),
         ("session_id", pget r.payload "session_id"),
         ("chunk_id", pget r.payload "chunk_id"),
         ("score", PVal.int r.score)]⟩) := by
  constructor
  · unfold similarity_search
    rw [if_neg (by simpa [List.isEmpty_iff] using hq)]
    simp only []
    rw [hok]
    dsimp only
    rw [docsOfPoints_total pts hcontent]
  · intro r
    rfl

/-- Two scored points, best match first. -/
def sp1 : ScoredPoint :=
  ⟨"p1", [("content", PVal.str "first"), ("session_id", PVal.str "s1")], 9⟩

/-- A second, lower-scored point. -/
def sp2 : ScoredPoint := ⟨"p2", [("content", PVal.str "second")], 3⟩

/-- A client whose query returns `sp1` then `sp2`. -/
def searchClient : QdrantClient :=
  { okClient with query_points := fun _ _ _ _ => Except.ok [sp1, sp2] }

/-- Witness for C6: the two points come back mapped in the same order. -/
theorem c6_order_and_metadata_witness :
    (similarity_search searchClient "rag_documents" [1] 5 Option.none).1 =
      [docOfPointTotal sp1, docOfPointTotal sp2] := by
  have h := c6_order_and_metadata searchClient "rag_documents" [1] 5
    Option.none [sp1, sp2] (by decide) rfl (by decide)
  simpa using h.1

/-! ### C7: filter translation and session scoping -/

/-- Every document of a successful mapping loop comes from one of the
returned points. -/
theorem mem_docsOfPoints :
    ∀ (pts : List ScoredPoint) (ds : List Document),
      docsOfPoints pts = Except.ok ds →
      ∀ d ∈ ds, ∃ r ∈ pts, docOfPoint r = Except.ok d := by
  intro pts
  induction pts with
  | nil =>
    intro ds h d hd
    injection h with h
    rw [← h] at hd
    simp at hd
  | cons r rest ih =>
    intro ds h d hd
    simp only [docsOfPoints] at h
    cases hr : docOfPoint r with
    | error e => rw [hr] at h; cases h
    | ok d0 =>
      rw [hr] at h
      cases hrest : docsOfPoints rest with
      | error e => rw [hrest] at h; cases h
      | ok ds0 =>
        rw [hrest] at h
        injection h with h
        rw [← h] at hd
        rcases List.mem_cons.mp hd with h1 | h1
        · exact ⟨r, List.mem_cons_self _ _, by rw [hr, h1]⟩
        · obtain ⟨x, hx, hxd⟩ := ih ds0 hrest d h1
          exact ⟨x, List.mem_cons_of_mem _ hx, hxd⟩

/-- The rebuilt document's session_id metadata is the point's session_id
payload value. -/
theorem docOfPoint_session (r : ScoredPoint) (d : Document)
    (h : docOfPoint r = Except.ok d) :
    pget d.metadata "session_id" = pget r.payload "session_id" := by
  unfold docOfPoint at h
  cases hc : r.payload.lookup "content" with
  | none => rw [hc] at h; cases h
  | some c =>
    rw [hc] at h
    injection h with h
    rw [← h]
    rfl

/-- C7: a non-empty filter dict is translated into a `must` (AND) list of one
exact-match condition per entry — visible in the issued call — and against a
service honoring that filter, every returned document's session_id metadata
equals the filtered value. -/
theorem c7_filter_translation (cl : QdrantClient) (cname : String)
    (q : List Int) (k : Nat) (l : List (String × PVal)) (s : String)
    (hq : q ≠ []) (hl : l ≠ [])
    (hmem : ("session_id", PVal.str s) ∈ l)
    (hcl : ∀ pts, cl.query_points cname q
        (Option.some ⟨l.map (fun kv => ⟨kv.1, kv.2⟩)⟩) k = Except.ok pts →
        ∀ r ∈ pts,
          satisfiesFilter r.payload ⟨l.map (fun kv => ⟨kv.1, kv.2⟩)⟩ = true) :
    (similarity_search cl cname q k (Option.some l)).2 =
      [Call.queryPoints cname q
        (Option.some ⟨l.map (fun kv => ⟨kv.1, kv.2⟩)⟩) k] ∧
    (∀ d ∈ (similarity_search cl cname q k (Option.some l)).1,
       pget d.metadata "session_id" = PVal.str s) := by
  have hqf : mkQueryFilter (Option.some l) =
      Option.some ⟨l.map (fun kv => ⟨kv.1, kv.2⟩)⟩ := by
    simp only [mkQueryFilter]
    rw [if_neg (by simpa [List.isEmpty_iff] using hl)]
  unfold similarity_search
  rw [if_neg (by simpa [List.isEmpty_iff] using hq)]
  simp only []
  rw [hqf]
  cases hres : cl.query_points cname q
      (Option.some ⟨l.map (fun kv => ⟨kv.1, kv.2⟩)⟩) k with
  | error e =>
    dsimp only
    exact ⟨rfl, by intro d hd; simp at hd⟩
  | ok pts =>
    dsimp only
    cases hdocs : docsOfPoints pts with
    | error e =>
      dsimp only
      exact ⟨rfl, by intro d hd; simp at hd⟩
    | ok ds =>
      dsimp only
      refine ⟨rfl, ?_⟩
      intro d hd
      obtain ⟨r, hr, hrd⟩ := mem_docsOfPoints pts ds hdocs d hd
      have hsat := hcl pts hres r hr
      have hcond : (⟨"session_id", PVal.str s⟩ : FieldCondition) ∈
          l.map (fun kv => (⟨kv.1, kv.2⟩ : FieldCondition)) :=
        List.mem_map.mpr ⟨("session_id", PVal.str s), hmem, rfl⟩
      have hdec := List.all_eq_true.mp hsat _ hcond
      have hval : pget r.payload "session_id" = PVal.str s :=
        of_decide_eq_true hdec
      rw [docOfPoint_session r d hrd]
      exact hval

/-- A stored point of session s1 with content present. -/
def c7point : ScoredPoint :=
  ⟨"p", [("content", PVal.str "body"), ("session_id", PVal.str "s1")], 5⟩

/-- A client returning exactly the session-s1 point for any query. -/
def c7client : QdrantClient :=
  { okClient with query_points := fun _ _ _ _ => Except.ok [c7point] }

/-- Witness for C7 at a one-entry session filter. -/
theorem c7_filter_translation_witness :
    (similarity_search c7client "rag_documents" [1] 5
       (Option.some [("session_id", PVal.str "s1")])).2 =
      [Call.queryPoints "rag_documents" [1]
        (Option.some ⟨[("session_id", PVal.str "s1")].map
          (fun kv => ⟨kv.1, kv.2⟩)⟩) 5] ∧
    (∀ d ∈ (similarity_search c7client "rag_documents" [1] 5
       (Option.some [("session_id", PVal.str "s1")])).1,
       pget d.metadata "session_id" = PVal.str "s1") := by
  refine c7_filter_translation c7client "rag_documents" [1] 5
    [("session_id", PVal.str "s1")] "s1" (by decide) (by decide)
    (by decide) ?_
  intro pts hpts
  injection hpts with h
  rw [← h]
  decide

/-! ### C8: session scan -/

/-- C8: `get_documents_by_session` issues exactly one `scroll` call with the
session equality filter and `limit=1000` (no ranking query), maps the
returned points in order into flat records with exactly the keys id, content,
source_type, source_name, chunk_id, and — against a service honoring the
limit — never returns more than 1000 records. -/
theorem c8_session_scan (cl : QdrantClient) (cname : String) (sid : String)
    (hcl : ∀ pts, cl.scroll cname (sessionFilter sid) 1000 = Except.ok pts →
       pts.length ≤ 1000) :
    (get_documents_by_session cl cname sid).1.length ≤ 1000 ∧
    (get_documents_by_session cl cname sid).2 =
      [Call.scroll cname (sessionFilter sid) 1000] ∧
    (∀ pts, cl.scroll cname (sessionFilter sid) 1000 = Except.ok pts →
       (get_documents_by_session cl cname sid).1 = pts.map recOfPoint) ∧
    (∀ r ∈ (get_documents_by_session cl cname sid).1,
       r.map Prod.fst =
         ["id", "content", "source_type", "source_name", "chunk_id"]) := by
  unfold get_documents_by_session
  cases hres : cl.scroll cname (sessionFilter sid) 1000 with
  | error e =>
    dsimp only
    refine ⟨by simp, rfl, ?_, ?_⟩
    · intro pts h
      cases h
    · intro r hr
      simp at hr
  | ok pts =>
    dsimp only
    refine ⟨by simpa using hcl pts hres, rfl, ?_, ?_⟩
    · intro pts' h
      injection h with h
      rw [h]
    · intro r hr
      obtain ⟨p, hp, hpr⟩ := List.mem_map.mp hr
      rw [← hpr]
      rfl

/-- A first scrolled point of session s1. -/
def rp1 : RawPoint := ⟨"r1", [("content", PVal.str "a"), ("session_id", PVal.str "s1")]⟩

/-- A second scrolled point of session s1 with a sparse payload. -/
def rp2 : RawPoint := ⟨"r2", [("session_id", PVal.str "s1")]⟩

/-- A client whose scroll returns the two session-s1 points. -/
def scrollClient : QdrantClient :=
  { okClient with scroll := fun _ _ _ => Except.ok [rp1, rp2] }

/-- Witness for C8 at a two-point scroll result. -/
theorem c8_session_scan_witness :
    (get_documents_by_session scrollClient "rag_documents" "s1").1.length ≤ 1000 ∧
    (get_documents_by_session scrollClient "rag_documents" "s1").2 =
      [Call.scroll "rag_documents" (sessionFilter "s1") 1000] ∧
    (∀ pts, scrollClient.scroll "rag_documents" (sessionFilter "s1") 1000 =
        Except.ok pts →
       (get_documents_by_session scrollClient "rag_documents" "s1").1 =
         pts.map recOfPoint) ∧
    (∀ r ∈ (get_documents_by_session scrollClient "rag_documents" "s1").1,
       r.map Prod.fst =
         ["id", "content", "source_type", "source_name", "chunk_id"]) := by
  refine c8_session_scan scrollClient "rag_documents" "s1" ?_
  intro pts h
  injection h with h
  rw [← h]
  decide

/-! ### C9: length-mismatched inputs -/

/-- Lists zipped together truncate to the shorter list. -/
theorem zip_take_min :
    ∀ (ds : List Document) (es : List (List Int)),
      ds.zip es =
        (ds.take (min ds.length es.length)).zip
          (es.take (min ds.length es.length)) := by
  intro ds
  induction ds with
  | nil => intro es; simp
  | cons d ds ih =>
    intro es
    cases es with
    | nil => simp
    | cons e es =>
      simp only [List.length_cons]
      rw [Nat.succ_min_succ]
      simp only [List.take_succ_cons, List.zip_cons_cons]
      rw [← ih es]

/-- C9: with lists of different lengths, `add_documents` behaves exactly as
on the first `min` pairs — the surplus entries of the longer list produce no
points, no service interaction and no error (the function is total). -/
theorem c9_surplus_ignored (cl : QdrantClient) (cname : String)
    (uuids : Nat → String) (documents : List Document)
    (embeddings : List (List Int)) :
    add_documents cl cname uuids documents embeddings =
      add_documents cl cname uuids
        (documents.take (min documents.length embeddings.length))
        (embeddings.take (min documents.length embeddings.length)) := by
  unfold add_documents buildPoints
  rw [← zip_take_min]

/-! ### C10: one malformed payload discards the whole result -/

/-- A well-formed scored point (content present). -/
def c10good : ScoredPoint :=
  ⟨"g", [("content", PVal.str "good"), ("session_id", PVal.str "s1")], 10⟩

/-- A malformed scored point whose payload lacks the content key. -/
def c10bad : ScoredPoint := ⟨"b", [("session_id", PVal.str "s1")], 8⟩

/-- A client returning the well-formed point first, the malformed one
second. -/
def c10client : QdrantClient :=
  { okClient with query_points := fun _ _ _ _ => Except.ok [c10good, c10bad] }

/-- C10: a response holding one well-formed point and one point without a
content key makes `result.payload["content"]` raise inside the mapping loop;
the fail-soft handler catches it and the whole call returns `[]`, discarding
the well-formed result. -/
theorem c10_missing_content_discards_all :
    docOfPoint c10good = Except.ok (docOfPointTotal c10good) ∧
    docOfPoint c10bad = Except.error (PyErr.keyError "content") ∧
    similarity_search c10client "rag_documents" [1] 5 Option.none =
      ([], [Call.queryPoints "rag_documents" [1] Option.none 5]) :=
  ⟨rfl, rfl, rfl⟩

end VectorStore
